import Mathlib

/-!
Verification of the iron-condor options strategy found in
src/nautilus_trader/examples/strategies/iron_condor.py (the primary
implementation) and src/strategies/iron_condor.py (a second, simpler
implementation).  Python Decimal arithmetic is embedded as exact rational
arithmetic over ℚ (all quantities occurring in the strategy fit well within
the 28 significant digits of the default Decimal context, so Decimal
division, multiplication and comparison are exact and agree with ℚ).
Dates/timestamps are embedded as natural numbers in YYYYMMDD form, whose
ordering agrees with chronological ordering of valid dates.
-/

namespace IronCondorModel

/-- Embedding of the Python builtin round applied to a Decimal: round half to
even to the nearest integer (Decimal uses ROUND_HALF_EVEN). -/
def roundHalfEven (q : ℚ) : ℤ :=
  if q - ⌊q⌋ < 1/2 then ⌊q⌋
  else if 1/2 < q - ⌊q⌋ then ⌊q⌋ + 1
  else if ⌊q⌋ % 2 = 0 then ⌊q⌋ else ⌊q⌋ + 1

/-- Rounding a price to the nearest multiple of an interval,
round(price / interval) * interval as in IronCondor.calculate_strike. -/
def roundToInterval (interval price : ℚ) : ℚ :=
  (roundHalfEven (price / interval) : ℚ) * interval

/-- The fixed strike interval of IronCondor.calculate_strike
(strike_interval = Decimal 0.5, line 231). -/
def strike_interval : ℚ := 1/2

/-- Embedding of IronCondor.calculate_strike (lines 228-232):
round(price / strike_interval) * strike_interval. -/
def calculate_strike (price : ℚ) : ℚ :=
  roundToInterval strike_interval price

/-- The four strikes of an iron condor. -/
structure StrikeSet where
  short_put : ℚ
  long_put : ℚ
  short_call : ℚ
  long_call : ℚ
  deriving DecidableEq

/-- The strike-selection formulas of IronCondor.check_entry_signals
(lines 131-135), generalized over the strike interval (the code fixes it
at 1/2 via calculate_strike). -/
def selectStrikes (interval price otm pw cw : ℚ) : StrikeSet :=
  let sp := roundToInterval interval (price - otm)
  let sc := roundToInterval interval (price + otm)
  { short_put := sp
    long_put := sp - pw
    short_call := sc
    long_call := sc + cw }

/-- The strikes exactly as computed by IronCondor.check_entry_signals, with
the hard-coded interval of calculate_strike. -/
def entryStrikes (price otm pw cw : ℚ) : StrikeSet :=
  selectStrikes strike_interval price otm pw cw

/-- Left-pad a string with zeros to the given width (no-op when already at
least that wide); models the zero-padding of Python 08.3f / %08d-style
format specifiers. -/
def padLeftZeros (w : Nat) (s : String) : String :=
  String.mk (List.replicate (w - s.length) '0') ++ s

/-- Embedding of the Python expression f that formats a strike with the
08.3f specifier (iron_condor.py lines 243, 255): total width 8 including
the decimal point, 3 decimal places, zero padded on the left.  The strike
is given in thousandths (m = 1000 * strike); every strike produced by the
strategy is a nonnegative multiple of 1/2, for which float conversion and
formatting are exact, so this integer embedding is faithful. -/
def fmtFixed83 (m : Nat) : String :=
  padLeftZeros 8 (toString (m / 1000) ++ "." ++ padLeftZeros 3 (toString (m % 1000)))

/-- Thousandths of a rational strike (exact for the multiples of 1/2 the
strategy produces). -/
def strikeThousandths (strike : ℚ) : Nat :=
  ⌊strike * 1000⌋.toNat

/-- Embedding of datetime.strftime with format %Y%m%d on a date encoded as
a YYYYMMDD natural number: its 8-digit zero-padded decimal string. -/
def fmtYYYYMMDD (d : Nat) : String :=
  padLeftZeros 8 (toString d)

/-- Embedding of IronCondor._get_next_monthly_expiry (lines 258-269).
The option chain is None (none) or holds a list of expiry dates encoded as
YYYYMMDD numbers; now is the current time in the same encoding.  Returns
the empty string when the chain is absent or no expiry lies strictly after
now, otherwise the formatted first expiry after now in the sorted list. -/
def getNextMonthlyExpiry (chain : Option (List Nat)) (now : Nat) : String :=
  match chain with
  | none => ""
  | some expiries =>
    match (expiries.insertionSort (· ≤ ·)).find? (fun e => decide (now < e)) with
    | some e => fmtYYYYMMDD e
    | none => ""

/-- Embedding of IronCondor.get_call_option_id (lines 234-244):
f-string symbol expiry C strike08.3f .SMART. -/
def getCallOptionId (symbol : String) (chain : Option (List Nat)) (now : Nat)
    (strike : ℚ) : String :=
  symbol ++ getNextMonthlyExpiry chain now ++ "C" ++ fmtFixed83 (strikeThousandths strike) ++ ".SMART"

/-- Embedding of IronCondor.get_put_option_id (lines 246-256). -/
def getPutOptionId (symbol : String) (chain : Option (List Nat)) (now : Nat)
    (strike : ℚ) : String :=
  symbol ++ getNextMonthlyExpiry chain now ++ "P" ++ fmtFixed83 (strikeThousandths strike) ++ ".SMART"

/-- Order side, as in nautilus OrderSide. -/
inductive Side where
  | buy
  | sell
  deriving DecidableEq

/-- An observable effect of the strategy: submitting a market order for an
instrument (submit_order of a MarketOrder), or calling close_all_positions. -/
inductive Action where
  | submit (instrument : String) (side : Side) (quantity : ℚ)
  | closeAll
  deriving DecidableEq

/-- The configuration fields of IronCondorConfig used by the handlers
(iron_condor.py lines 18-27).  Widths and distance are ints in Python and
trade_size a Decimal; both embed into ℚ. -/
structure ICConfig where
  symbol : String
  trade_size : ℚ
  call_width : ℚ
  put_width : ℚ
  otm_distance : ℚ

/-- The mutable attributes of an IronCondor strategy object set in
IronCondor.__init__ (lines 52-67): the stored configuration values and the
state fields. -/
structure IronCondorSelf where
  symbol : String
  trade_size : ℚ
  call_width : ℚ
  put_width : ℚ
  otm_distance : ℚ
  option_chain : Option (List Nat)
  is_position_opened : Bool
  entry_price : ℚ
  max_profit : ℚ

/-- Embedding of IronCondor.__init__ (lines 43-67): stores the configuration
verbatim and initializes the state fields.  The constructor performs no
validation of the parameters (there is no InvalidConfiguration path in the
source), so it is a total function. -/
def ironCondorInit (cfg : ICConfig) : IronCondorSelf :=
  { symbol := cfg.symbol
    trade_size := cfg.trade_size
    call_width := cfg.call_width
    put_width := cfg.put_width
    otm_distance := cfg.otm_distance
    option_chain := none
    is_position_opened := false
    entry_price := 0
    max_profit := 0 }

/-- Embedding of IronCondor.sell_put_spread (lines 141-157): submit a sell
of the put at the short strike, then a buy of the put at the long strike. -/
def sellPutSpread (self : IronCondorSelf) (now : Nat) (shortStrike longStrike : ℚ) :
    List Action :=
  [Action.submit (getPutOptionId self.symbol self.option_chain now shortStrike)
      Side.sell self.trade_size,
   Action.submit (getPutOptionId self.symbol self.option_chain now longStrike)
      Side.buy self.trade_size]

/-- Embedding of IronCondor.sell_call_spread (lines 159-175): submit a sell
of the call at the short strike, then a buy of the call at the long strike. -/
def sellCallSpread (self : IronCondorSelf) (now : Nat) (shortStrike longStrike : ℚ) :
    List Action :=
  [Action.submit (getCallOptionId self.symbol self.option_chain now shortStrike)
      Side.sell self.trade_size,
   Action.submit (getCallOptionId self.symbol self.option_chain now longStrike)
      Side.buy self.trade_size]

/-- Embedding of IronCondor.check_entry_signals (lines 117-139): return
early when is_position_opened is set, else compute the four strikes from
the bar close and submit the put spread then the call spread.  Returns the
(unchanged) strategy object and the submitted orders: note the source never
assigns is_position_opened after submitting. -/
def checkEntrySignals (self : IronCondorSelf) (now : Nat) (price : ℚ) :
    IronCondorSelf × List Action :=
  if self.is_position_opened then (self, [])
  else
    let short_put_strike := calculate_strike (price - self.otm_distance)
    let long_put_strike := short_put_strike - self.put_width
    let short_call_strike := calculate_strike (price + self.otm_distance)
    let long_call_strike := short_call_strike + self.call_width
    (self, sellPutSpread self now short_put_strike long_put_strike ++
           sellCallSpread self now short_call_strike long_call_strike)

/-- Embedding of IronCondor.check_exit_signals (lines 177-210): return early
when no position is opened; otherwise, when the portfolio is not flat,
close all positions and clear is_position_opened exactly when the
unrealized pnl reaches the profit target max_profit * 0.5 or the stop loss
-max_profit * 2.0.  The portfolio flatness and unrealized pnl are external
inputs. -/
def checkExitSignals (self : IronCondorSelf) (isFlat : Bool) (pnl : ℚ) :
    IronCondorSelf × List Action :=
  if !self.is_position_opened then (self, [])
  else if !isFlat then
    if pnl ≥ self.max_profit * (1/2) ∨ pnl ≤ -self.max_profit * 2 then
      ({ self with is_position_opened := false }, [Action.closeAll])
    else (self, [])
  else (self, [])

/-- The external inputs a bar update arrives with: the bar close price, the
clock time, and the portfolio view (flatness and unrealized pnl) the
handlers query. -/
structure BarEnv where
  close : ℚ
  now : Nat
  isFlat : Bool
  pnl : ℚ

/-- Embedding of IronCondor.on_bar (lines 105-115): wait for the option
chain, then dispatch on portfolio flatness to entry or exit checking. -/
def onBar (self : IronCondorSelf) (bar : BarEnv) : IronCondorSelf × List Action :=
  match self.option_chain with
  | none => (self, [])
  | some _ =>
    if bar.isFlat then checkEntrySignals self bar.now bar.close
    else checkExitSignals self bar.isFlat bar.pnl

/-- Embedding of IronCondor.on_reset (lines 218-225). -/
def onReset (self : IronCondorSelf) : IronCondorSelf × List Action :=
  ({ self with option_chain := none
               is_position_opened := false
               entry_price := 0
               max_profit := 0 }, [])

/-- The driving events of one strategy instance: a bar update with its
external inputs, a refresh of the held option-chain snapshot (as performed
in on_start, line 103), and a reset. -/
inductive Event where
  | bar (env : BarEnv)
  | chainUpdate (chain : Option (List Nat))
  | reset

/-- One handler invocation. -/
def step (self : IronCondorSelf) : Event → IronCondorSelf × List Action
  | Event.bar env => onBar self env
  | Event.chainUpdate c => ({ self with option_chain := c }, [])
  | Event.reset => onReset self

/-- Run a sequence of events from a state, collecting the trace of emitted
actions. -/
def runFrom (self : IronCondorSelf) : List Event → IronCondorSelf × List Action
  | [] => (self, [])
  | e :: es =>
    let s1 := step self e
    let s2 := runFrom s1.1 es
    (s2.1, s1.2 ++ s2.2)

/-- Embedding of IronCondor._enter_iron_condor from the second
implementation, src/strategies/iron_condor.py lines 73-122: four market
orders on the underlying instrument, sides sell, buy, sell, buy, all with
the same trade size. -/
def enterIronCondorOrders (instrument : String) (tradeSize : ℚ) : List Action :=
  [Action.submit instrument Side.sell tradeSize,
   Action.submit instrument Side.buy tradeSize,
   Action.submit instrument Side.sell tradeSize,
   Action.submit instrument Side.buy tradeSize]

/-- The configuration used by run_iron_condor.py and my_iron_condor.py:
SPX underlying, one contract per leg, widths 10, OTM distance 20. -/
def cfgSPX : ICConfig :=
  { symbol := "SPX", trade_size := 1, call_width := 10, put_width := 10, otm_distance := 20 }

/-- A bar update fixture: close 100, clock at 2024-01-01, portfolio flat,
zero unrealized pnl. -/
def barFlat : Event :=
  Event.bar { close := 100, now := 20240101, isFlat := true, pnl := 0 }

/-- A strategy object fixture with an open position and max profit 10,
used to exercise the exit logic. -/
def sampleOpenSelf : IronCondorSelf :=
  { symbol := "SPX", trade_size := 1, call_width := 10, put_width := 10, otm_distance := 20
    option_chain := some [20240216], is_position_opened := true
    entry_price := 100, max_profit := 10 }

/-- A strategy object fixture with no open position and a chain snapshot,
used to exercise the entry logic. -/
def sampleFlatSelf : IronCondorSelf :=
  { symbol := "SPX", trade_size := 1, call_width := 10, put_width := 10, otm_distance := 20
    option_chain := some [20240216], is_position_opened := false
    entry_price := 0, max_profit := 0 }

/- Helper lemmas -/

theorem roundHalfEven_abs_le (q : ℚ) : |q - (roundHalfEven q : ℚ)| ≤ 1/2 := by
  have h0 : ((⌊q⌋ : ℤ) : ℚ) ≤ q := Int.floor_le q
  have h1 : q < ⌊q⌋ + 1 := Int.lt_floor_add_one q
  rw [roundHalfEven]
  split_ifs with hlt hgt hev <;> push_cast <;> rw [abs_le] <;> constructor <;> linarith

theorem roundHalfEven_even_of_tie (q : ℚ)
    (h : |q - (roundHalfEven q : ℚ)| = 1/2) : Even (roundHalfEven q) := by
  have h0 : ((⌊q⌋ : ℤ) : ℚ) ≤ q := Int.floor_le q
  have h1 : q < ⌊q⌋ + 1 := Int.lt_floor_add_one q
  rw [roundHalfEven] at h ⊢
  split_ifs at h ⊢ with hlt hgt hev
  · exfalso
    rw [abs_of_nonneg (by linarith)] at h
    linarith
  · exfalso
    push_cast at h
    rw [abs_of_nonpos (by linarith)] at h
    linarith
  · exact Int.even_iff.mpr hev
  · have hodd : ⌊q⌋ % 2 = 1 := by omega
    exact Int.even_iff.mpr (by omega)

theorem roundToInterval_abs_le (interval price : ℚ) (hi : 0 < interval) :
    |price - roundToInterval interval price| ≤ interval / 2 := by
  have h := roundHalfEven_abs_le (price / interval)
  have hne : interval ≠ 0 := ne_of_gt hi
  have key : price - roundToInterval interval price =
      (price / interval - (roundHalfEven (price / interval) : ℚ)) * interval := by
    rw [roundToInterval]
    field_simp
    ring
  rw [key, abs_mul, abs_of_pos hi]
  have h2 := mul_le_mul_of_nonneg_right h (le_of_lt hi)
  linarith

theorem find?_min_of_sorted {l : List Nat} (hs : l.Sorted (· ≤ ·)) {p : Nat → Bool}
    {x : Nat} (hx : l.find? p = some x) :
    x ∈ l ∧ p x = true ∧ ∀ y ∈ l, p y = true → x ≤ y := by
  induction l with
  | nil => simp at hx
  | cons a t ih =>
    rw [List.sorted_cons] at hs
    by_cases hpa : p a = true
    · rw [List.find?_cons_of_pos _ hpa] at hx
      injection hx with hax
      subst hax
      refine ⟨List.mem_cons_self _ _, hpa, ?_⟩
      intro y hy hpy
      rcases List.mem_cons.mp hy with rfl | hyt
      · exact le_refl _
      · exact hs.1 y hyt
    · rw [List.find?_cons_of_neg _ hpa] at hx
      obtain ⟨hmem, hpx, hmin⟩ := ih hs.2 hx
      refine ⟨List.mem_cons_of_mem _ hmem, hpx, ?_⟩
      intro y hy hpy
      rcases List.mem_cons.mp hy with rfl | hyt
      · exact absurd hpy hpa
      · exact hmin y hyt hpy

theorem strikeThousandths_150 : strikeThousandths 150 = 150000 := by
  rw [strikeThousandths]
  norm_num
  decide

theorem strikeThousandths_47_5 : strikeThousandths (95/2) = 47500 := by
  rw [strikeThousandths]
  norm_num
  decide

theorem step_inv (s : IronCondorSelf) (e : Event)
    (h1 : s.is_position_opened = false) (h2 : s.max_profit = 0) :
    (step s e).1.is_position_opened = false ∧ (step s e).1.max_profit = 0 ∧
      Action.closeAll ∉ (step s e).2 := by
  cases e with
  | bar env =>
    rcases hc : s.option_chain with _ | c
    · simp [step, onBar, hc, h1, h2]
    · by_cases hf : env.isFlat
      · simp [step, onBar, hc, hf, checkEntrySignals, h1, h2, sellPutSpread, sellCallSpread]
      · simp [step, onBar, hc, hf, checkExitSignals, h1, h2]
  | chainUpdate c => simp [step, h1, h2]
  | reset => simp [step, onReset]

theorem runFrom_inv : ∀ (events : List Event) (s : IronCondorSelf),
    s.is_position_opened = false → s.max_profit = 0 →
    (runFrom s events).1.is_position_opened = false ∧
    (runFrom s events).1.max_profit = 0 ∧
    Action.closeAll ∉ (runFrom s events).2 := by
  intro events
  induction events with
  | nil =>
    intro s h1 h2
    simp [runFrom, h1, h2]
  | cons e es ih =>
    intro s h1 h2
    obtain ⟨k1, k2, k3⟩ := step_inv s e h1 h2
    obtain ⟨m1, m2, m3⟩ := ih (step s e).1 k1 k2
    refine ⟨by simpa [runFrom] using m1, by simpa [runFrom] using m2, ?_⟩
    simp only [runFrom, List.mem_append]
    rintro (h | h)
    · exact k3 h
    · exact m3 h

/- Claim theorems -/

/-- C2, counterexample: with the valid configuration otm_distance = 0,
put_width = 1, call_width = 1 (satisfying put_width > 0, call_width > 0,
otm_distance >= 0, interval 1/2 > 0) and reference price 3/10, the short
put strike computed by check_entry_signals is 1/2, which is strictly above
the reference price, refuting short_put <= reference_price. -/
theorem c2_strike_ordering_counterexample :
    (0:ℚ) < 1 ∧ (0:ℚ) ≤ 0 ∧ (0:ℚ) < strike_interval ∧
    (entryStrikes (3/10) 0 1 1).short_put = 1/2 ∧
    ¬((entryStrikes (3/10) 0 1 1).short_put ≤ 3/10) := by
  refine ⟨by norm_num, le_refl _, by rw [strike_interval]; norm_num, ?_, ?_⟩ <;>
    norm_num [entryStrikes, selectStrikes, strike_interval, roundToInterval, roundHalfEven]

/-- C2, amended: for every interval > 0, put_width > 0, call_width > 0 and
otm_distance at least half the strike interval (rounding moves a price by
at most interval/2, so this is exactly the hypothesis the counterexample
forces), the four strikes of the entry path satisfy
long_put < short_put <= reference_price <= short_call < long_call; the
selection is a pure function of its arguments, hence deterministic. -/
theorem c2_strike_ordering (interval price otm pw cw : ℚ) (hi : 0 < interval)
    (hpw : 0 < pw) (hcw : 0 < cw) (hotm : interval ≤ 2 * otm) :
    (selectStrikes interval price otm pw cw).long_put <
      (selectStrikes interval price otm pw cw).short_put ∧
    (selectStrikes interval price otm pw cw).short_put ≤ price ∧
    price ≤ (selectStrikes interval price otm pw cw).short_call ∧
    (selectStrikes interval price otm pw cw).short_call <
      (selectStrikes interval price otm pw cw).long_call := by
  have h1 := roundToInterval_abs_le interval (price - otm) hi
  have h2 := roundToInterval_abs_le interval (price + otm) hi
  rw [abs_le] at h1 h2
  simp only [selectStrikes]
  refine ⟨by linarith, by linarith, by linarith, by linarith⟩

/-- C2 witness: the amended ordering at interval 1/2, price 100.3,
otm_distance 20, widths 10. -/
theorem c2_strike_ordering_witness :
    (selectStrikes (1/2) (1003/10) 20 10 10).long_put <
      (selectStrikes (1/2) (1003/10) 20 10 10).short_put ∧
    (selectStrikes (1/2) (1003/10) 20 10 10).short_put ≤ 1003/10 ∧
    (1003/10 : ℚ) ≤ (selectStrikes (1/2) (1003/10) 20 10 10).short_call ∧
    (selectStrikes (1/2) (1003/10) 20 10 10).short_call <
      (selectStrikes (1/2) (1003/10) 20 10 10).long_call :=
  c2_strike_ordering (1/2) (1003/10) 20 10 10 (by norm_num) (by norm_num)
    (by norm_num) (by norm_num)

/-- C3: when a position is open (is_position_opened set and portfolio not
flat), check_exit_signals closes the position and clears the flag exactly
when the unrealized pnl reaches max_profit * 0.5 or falls to
-max_profit * 2.0, and otherwise leaves state and orders untouched. -/
theorem c3_exit_condition (self : IronCondorSelf) (isFlat : Bool) (pnl : ℚ)
    (hOpen : self.is_position_opened = true) (hFlat : isFlat = false) :
    ((pnl ≥ self.max_profit * (1/2) ∨ pnl ≤ -self.max_profit * 2) →
      checkExitSignals self isFlat pnl =
        ({ self with is_position_opened := false }, [Action.closeAll])) ∧
    (¬(pnl ≥ self.max_profit * (1/2) ∨ pnl ≤ -self.max_profit * 2) →
      checkExitSignals self isFlat pnl = (self, [])) := by
  subst hFlat
  have e1 : checkExitSignals self false pnl =
      if pnl ≥ self.max_profit * (1/2) ∨ pnl ≤ -self.max_profit * 2 then
        ({ self with is_position_opened := false }, [Action.closeAll])
      else (self, []) := by
    rw [checkExitSignals, hOpen]
    simp only [Bool.not_true, Bool.not_false]
    rw [if_neg (by simp), if_pos (by simp)]
  constructor <;> intro h
  · rw [e1, if_pos h]
  · rw [e1, if_neg h]

/-- C3 witness: with max profit 10 and unrealized pnl 5 the profit target
10 * 0.5 is reached and the position is closed. -/
theorem c3_exit_condition_witness :
    checkExitSignals sampleOpenSelf false 5 =
      ({ sampleOpenSelf with is_position_opened := false }, [Action.closeAll]) :=
  (c3_exit_condition sampleOpenSelf false 5 rfl rfl).1
    (Or.inl (by norm_num [sampleOpenSelf]))

/-- C7, counterexample: constructing the strategy with put_width = 0,
call_width = -10 and otm_distance = -20 succeeds and stores the invalid
parameters verbatim (IronCondor.__init__ has no validation path), and
strike selection with those parameters also proceeds, producing an
inverted strike set (short put 120 above short call 80) instead of
failing with InvalidConfiguration. -/
theorem c7_validation_counterexample :
    (ironCondorInit ⟨"SPX", 1, -10, 0, -20⟩).put_width = 0 ∧
    (ironCondorInit ⟨"SPX", 1, -10, 0, -20⟩).call_width = -10 ∧
    (ironCondorInit ⟨"SPX", 1, -10, 0, -20⟩).otm_distance = -20 ∧
    (entryStrikes 100 (-20) 0 (-10)).short_put = 120 ∧
    (entryStrikes 100 (-20) 0 (-10)).short_call = 80 := by
  refine ⟨rfl, rfl, rfl, ?_, ?_⟩ <;>
    norm_num [entryStrikes, selectStrikes, strike_interval, roundToInterval, roundHalfEven]

/-- C7, amended: the strategy performs no parameter validation at all:
construction succeeds for every parameter set, including those with
put_width <= 0, call_width <= 0 or otm_distance < 0, storing the
configuration verbatim and initializing the state fields; the strike
interval is not configurable. -/
theorem c7_no_validation (cfg : ICConfig) :
    (ironCondorInit cfg).symbol = cfg.symbol ∧
    (ironCondorInit cfg).trade_size = cfg.trade_size ∧
    (ironCondorInit cfg).call_width = cfg.call_width ∧
    (ironCondorInit cfg).put_width = cfg.put_width ∧
    (ironCondorInit cfg).otm_distance = cfg.otm_distance ∧
    (ironCondorInit cfg).option_chain = none ∧
    (ironCondorInit cfg).is_position_opened = false ∧
    (ironCondorInit cfg).entry_price = 0 ∧
    (ironCondorInit cfg).max_profit = 0 :=
  ⟨rfl, rfl, rfl, rfl, rfl, rfl, rfl, rfl, rfl⟩

/-- C8: calculate_strike returns a multiple k * (1/2) of the strike
interval that is nearest to the input price among all such multiples, and
whenever a distinct multiple is equidistant (a tie at the midpoint) the
chosen coefficient k is even, i.e. the tie is resolved toward the even
multiple; as a function of its argument it is deterministic. -/
theorem c8_rounding_policy (price : ℚ) :
    ∃ k : ℤ, calculate_strike price = (k : ℚ) * strike_interval ∧
      (∀ j : ℤ, |price - (k : ℚ) * strike_interval| ≤ |price - (j : ℚ) * strike_interval|) ∧
      ((∃ j : ℤ, j ≠ k ∧ |price - (j : ℚ) * strike_interval| =
          |price - (k : ℚ) * strike_interval|) → Even k) := by
  have hsi : (0:ℚ) < strike_interval := by rw [strike_interval]; norm_num
  have habs : ∀ i : ℤ, |price - (i : ℚ) * strike_interval| =
      |price / strike_interval - (i : ℚ)| * strike_interval := by
    intro i
    have hrw : price - (i : ℚ) * strike_interval =
        (price / strike_interval - (i : ℚ)) * strike_interval := by
      rw [strike_interval]; ring
    rw [hrw, abs_mul, abs_of_pos hsi]
  have hone : ∀ j : ℤ, j ≠ roundHalfEven (price / strike_interval) →
      (1:ℚ) ≤ |(j : ℚ) - (roundHalfEven (price / strike_interval) : ℚ)| := by
    intro j hjk
    have hz : j - roundHalfEven (price / strike_interval) ≠ 0 := sub_ne_zero.mpr hjk
    exact_mod_cast Int.one_le_abs hz
  have htri : ∀ j : ℤ, |(j : ℚ) - (roundHalfEven (price / strike_interval) : ℚ)| ≤
      |price / strike_interval - (j : ℚ)| +
      |price / strike_interval - (roundHalfEven (price / strike_interval) : ℚ)| := by
    intro j
    have hrw2 : (j : ℚ) - (roundHalfEven (price / strike_interval) : ℚ) =
        ((j : ℚ) - price / strike_interval) +
        (price / strike_interval - (roundHalfEven (price / strike_interval) : ℚ)) := by ring
    rw [hrw2]
    calc |((j : ℚ) - price / strike_interval) +
          (price / strike_interval - (roundHalfEven (price / strike_interval) : ℚ))| ≤
        |(j : ℚ) - price / strike_interval| +
        |price / strike_interval - (roundHalfEven (price / strike_interval) : ℚ)| :=
          abs_add _ _
      _ = |price / strike_interval - (j : ℚ)| +
          |price / strike_interval - (roundHalfEven (price / strike_interval) : ℚ)| := by
          rw [abs_sub_comm ((j : ℚ)) (price / strike_interval)]
  have hk := roundHalfEven_abs_le (price / strike_interval)
  refine ⟨roundHalfEven (price / strike_interval), rfl, ?_, ?_⟩
  · intro j
    rw [habs, habs]
    by_cases hjk : j = roundHalfEven (price / strike_interval)
    · subst hjk; exact le_refl _
    · exact mul_le_mul_of_nonneg_right
        (by linarith [hone j hjk, htri j]) (le_of_lt hsi)
  · rintro ⟨j, hjk, hje⟩
    rw [habs, habs] at hje
    have hje2 : |price / strike_interval - (j : ℚ)| =
        |price / strike_interval - (roundHalfEven (price / strike_interval) : ℚ)| :=
      mul_right_cancel₀ (ne_of_gt hsi) hje
    have hext : |price / strike_interval -
        (roundHalfEven (price / strike_interval) : ℚ)| = 1/2 := by
      have hnn := abs_nonneg
        (price / strike_interval - (roundHalfEven (price / strike_interval) : ℚ))
      linarith [hone j hjk, htri j, hje2, hk]
    exact roundHalfEven_even_of_tie (price / strike_interval) hext

/-- C1: the code violates the mutual-exclusion claim.  Starting from a
fresh strategy with the SPX configuration and a chain snapshot, one bar
update while the portfolio is flat submits the four leg orders, but the
state still has is_position_opened = false (check_entry_signals never sets
it), so a second bar update delivered while the first operation is
unresolved (portfolio still flat) submits four further leg orders: the
trace of two bars holds eight submissions, where the claim requires the
open path to run at most once. -/
theorem c1_mutual_exclusion_violated :
    (runFrom (ironCondorInit cfgSPX)
      [Event.chainUpdate (some [20240216]), barFlat]).2.length = 4 ∧
    (runFrom (ironCondorInit cfgSPX)
      [Event.chainUpdate (some [20240216]), barFlat]).1.is_position_opened = false ∧
    (runFrom (ironCondorInit cfgSPX)
      [Event.chainUpdate (some [20240216]), barFlat, barFlat]).2.length = 8 := by
  refine ⟨?_, ?_, ?_⟩ <;>
    simp [runFrom, step, onBar, checkEntrySignals, sellPutSpread, sellCallSpread,
      ironCondorInit, cfgSPX, barFlat]

/-- C4, counterexample: resolving symbol AAPL, expiry 2024-01-19, a call,
strike 150 yields AAPL20240119C0150.000.SMART (the Python 08.3f specifier
pads the strike field to 8 characters in total), not the 9-character
strike field of the claimed string AAPL20240119C00150.000.SMART. -/
theorem c4_identifier_counterexample :
    getCallOptionId "AAPL" (some [20240119]) 20240101 150 = "AAPL20240119C0150.000.SMART" ∧
    "AAPL20240119C0150.000.SMART" ≠ "AAPL20240119C00150.000.SMART" := by
  constructor
  · simp only [getCallOptionId, strikeThousandths_150]
    decide
  · decide

/-- C4, amended: the resolver builds symbol, expiry as YYYYMMDD, C or P,
the strike in zero-padded width-8 fixed 3-decimal format, a dot and the
venue SMART; the example input resolves to AAPL20240119C0150.000.SMART,
and the put and fractional-strike variants follow the same format. -/
theorem c4_identifier_format :
    getCallOptionId "AAPL" (some [20240119]) 20240101 150 = "AAPL20240119C0150.000.SMART" ∧
    getPutOptionId "AAPL" (some [20240119]) 20240101 150 = "AAPL20240119P0150.000.SMART" ∧
    getCallOptionId "AAPL" (some [20240119]) 20240101 (95/2) = "AAPL20240119C0047.500.SMART" := by
  refine ⟨?_, ?_, ?_⟩ <;>
    simp only [getCallOptionId, getPutOptionId, strikeThousandths_150, strikeThousandths_47_5] <;>
    decide

/-- C5: for every snapshot list (sorted or not) containing an expiry
strictly after as_of, the selector returns the formatted earliest such
expiry, and on the literal fixtures, sorted or unsorted, it returns
20240216. -/
theorem c5_expiry_selection (l : List Nat) (as_of : Nat) (h : ∃ e ∈ l, as_of < e) :
    (∃ m ∈ l, as_of < m ∧ (∀ e ∈ l, as_of < e → m ≤ e) ∧
      getNextMonthlyExpiry (some l) as_of = fmtYYYYMMDD m) ∧
    getNextMonthlyExpiry (some [20240119, 20240216, 20240315]) 20240120 = "20240216" ∧
    getNextMonthlyExpiry (some [20240315, 20240119, 20240216]) 20240120 = "20240216" := by
  refine ⟨?_, by decide, by decide⟩
  have hsort : List.Sorted (· ≤ ·) (l.insertionSort (· ≤ ·)) := List.sorted_insertionSort _ l
  have hperm : List.Perm (l.insertionSort (· ≤ ·)) l := List.perm_insertionSort _ l
  obtain ⟨e, hel, he⟩ := h
  have hsome : ∃ x, (l.insertionSort (· ≤ ·)).find? (fun y => decide (as_of < y)) = some x := by
    have hmem : e ∈ l.insertionSort (· ≤ ·) := hperm.mem_iff.mpr hel
    have hps : ((l.insertionSort (· ≤ ·)).find? (fun y => decide (as_of < y))).isSome := by
      rw [List.find?_isSome]
      exact ⟨e, hmem, by simpa using he⟩
    exact Option.isSome_iff_exists.mp hps
  obtain ⟨x, hx⟩ := hsome
  obtain ⟨hxm, hpx, hmin⟩ := find?_min_of_sorted hsort hx
  refine ⟨x, hperm.mem_iff.mp hxm, by simpa using hpx, ?_, ?_⟩
  · intro e2 he2 hlt
    exact hmin e2 (hperm.mem_iff.mpr he2) (by simpa using hlt)
  · simp only [getNextMonthlyExpiry, hx]

/-- C5 witness: the selector applied to the unsorted fixture. -/
theorem c5_expiry_selection_witness :
    getNextMonthlyExpiry (some [20240315, 20240119, 20240216]) 20240120 = "20240216" :=
  (c5_expiry_selection [20240315, 20240119, 20240216] 20240120
    ⟨20240216, by decide, by decide⟩).2.2

/-- C6: whenever the entry path runs (no position flagged open), it emits
exactly four leg orders, in the order short put sell, long put buy, short
call sell, long call buy, each with quantity trade_size; the second
implementation likewise submits exactly four orders, sides sell, buy,
sell, buy, all with the same quantity. -/
theorem c6_leg_order (self : IronCondorSelf) (now : Nat) (price : ℚ)
    (h : self.is_position_opened = false) :
    (checkEntrySignals self now price).2 =
      [Action.submit (getPutOptionId self.symbol self.option_chain now
          (calculate_strike (price - self.otm_distance))) Side.sell self.trade_size,
       Action.submit (getPutOptionId self.symbol self.option_chain now
          (calculate_strike (price - self.otm_distance) - self.put_width))
          Side.buy self.trade_size,
       Action.submit (getCallOptionId self.symbol self.option_chain now
          (calculate_strike (price + self.otm_distance))) Side.sell self.trade_size,
       Action.submit (getCallOptionId self.symbol self.option_chain now
          (calculate_strike (price + self.otm_distance) + self.call_width))
          Side.buy self.trade_size] ∧
    (checkEntrySignals self now price).2.length = 4 ∧
    (∀ instrument tradeSize,
      enterIronCondorOrders instrument tradeSize =
        [Action.submit instrument Side.sell tradeSize,
         Action.submit instrument Side.buy tradeSize,
         Action.submit instrument Side.sell tradeSize,
         Action.submit instrument Side.buy tradeSize] ∧
      (enterIronCondorOrders instrument tradeSize).length = 4) := by
  refine ⟨?_, ?_, fun i q => ⟨rfl, rfl⟩⟩ <;>
    simp [checkEntrySignals, h, sellPutSpread, sellCallSpread]

/-- C6 witness: the entry path from the flat fixture emits four orders. -/
theorem c6_leg_order_witness :
    (checkEntrySignals sampleFlatSelf 20240101 100).2.length = 4 :=
  (c6_leg_order sampleFlatSelf 20240101 100 rfl).2.1

/-- C9: from the initial state of any configuration, after any sequence of
bar updates, chain refreshes and resets, the fields is_position_opened and
max_profit still hold their initial values false and 0, and no
close_all_positions call ever appears in the emitted trace: the guard at
the top of check_exit_signals always returns early. -/
theorem c9_state_flags_invariant (cfg : ICConfig) (events : List Event) :
    (runFrom (ironCondorInit cfg) events).1.is_position_opened = false ∧
    (runFrom (ironCondorInit cfg) events).1.max_profit = 0 ∧
    Action.closeAll ∉ (runFrom (ironCondorInit cfg) events).2 :=
  runFrom_inv events (ironCondorInit cfg) rfl rfl

/-- C10: when the option chain is absent, or every expiry in it is at or
before the current time, the expiry helper returns the empty string and
the identifier builder then produces an identifier with an empty expiry
segment, such as AAPLC0150.000.SMART, instead of suppressing the order. -/
theorem c10_empty_expiry (chain : Option (List Nat)) (now : Nat)
    (h : chain = none ∨ ∀ l, chain = some l → ∀ e ∈ l, e ≤ now) :
    getNextMonthlyExpiry chain now = "" ∧
    getCallOptionId "AAPL" chain now 150 = "AAPLC0150.000.SMART" := by
  have hexp : getNextMonthlyExpiry chain now = "" := by
    rcases h with rfl | hall
    · rfl
    · cases chain with
      | none => rfl
      | some l =>
        have hle : ∀ e ∈ l, e ≤ now := hall l rfl
        have hnone : (l.insertionSort (· ≤ ·)).find? (fun e => decide (now < e)) = none := by
          rw [List.find?_eq_none]
          intro x hxm
          have hxl : x ∈ l := (List.perm_insertionSort _ l).subset hxm
          simpa using Nat.not_lt.mpr (hle x hxl)
        simp only [getNextMonthlyExpiry, hnone]
  refine ⟨hexp, ?_⟩
  simp only [getCallOptionId, hexp, strikeThousandths_150]
  decide

/-- C10 witness: a chain whose expiries all lie before the clock. -/
theorem c10_empty_expiry_witness :
    getNextMonthlyExpiry (some [20240101, 20231215]) 20240119 = "" ∧
    getCallOptionId "AAPL" (some [20240101, 20231215]) 20240119 150 = "AAPLC0150.000.SMART" :=
  c10_empty_expiry (some [20240101, 20231215]) 20240119
    (Or.inr (by intro l hl; cases hl; decide))

end IronCondorModel
